import Mathlib

/-!
Formal model of the predator-prey hierarchy pipeline.

The definitions below are a shallow embedding of the data-processing code of
the repository:

* `wolf-prey-network-real-data.r` : the Hierarchy Builder
  (`fetch_predator_prey_data`).  Its input is the list of interaction rows
  fetched from GloBI (`all_interactions`, one row per raw interaction record,
  restricted to the three columns the script uses) together with the taxonomy
  lookup (`get_taxonomy`, modelled as a function `String → Option TaxRecord`
  since it is an external web service).  The R pipeline stages are modelled
  one by one: `distinct()` on the selected columns (`distinctFirst`),
  per-species taxonomy resolution with the GloBI taxon-path fallback
  (`resolveRow` / `parsePath`), occurrence counting and the left-join with
  NA-to-1 defaulting (`countPair` / `joinCount`), the animal filter
  (`keepRow`), the Unknown-kingdom promotion (`normalizeRow`), the descending
  count sort (`sortedRows`), and the kingdom → family → species grouping that
  produces the JSON hierarchy (`buildHierarchy`).

* `server.js` : the `/api/fetch-predator-data` route's input validation and
  command construction (`fetchPredatorHandler`), and the output-artifact
  filename it checks (`serverOutputFilename`).

* `src/PredatorPreyRadialTree.js` : the data-loading fallback logic
  (`loadData`), the artifact path computation (`rendererJsonFilePath`), the
  scientific-name extraction used for Wikipedia links
  (`extractScientificName`) and the node click guard (`clickTarget`).

R string functions (`strsplit`, `grepl`, `gsub`) and the JavaScript string
and regex operations used by the code are implemented on `List Char` so that
every definition is executable and kernel-reducible.
-/

/-! ### Character-list string helpers (R strsplit / grepl / gsub, JS replace) -/

def containsSub (pat : List Char) : List Char → Bool
  | [] => pat.isEmpty
  | c :: rest => pat.isPrefixOf (c :: rest) || containsSub pat rest

def removeAllAux (pat : List Char) : Nat → List Char → List Char
  | 0, l => l
  | _ + 1, [] => []
  | fuel + 1, c :: rest =>
    if pat ≠ [] ∧ pat.isPrefixOf (c :: rest) then
      removeAllAux pat fuel (List.drop (pat.length - 1) rest)
    else
      c :: removeAllAux pat fuel rest

def removeAll (pat l : List Char) : List Char :=
  removeAllAux pat l.length l

def splitOnPipe : List Char → List (List Char)
  | [] => [[]]
  | c :: rest =>
    if c = '|' then [] :: splitOnPipe rest
    else
      match splitOnPipe rest with
      | [] => [[c]]
      | g :: gs => (c :: g) :: gs

/-! ### Taxonomy records and the GloBI taxon-path fallback parser -/

structure TaxRecord where
  kingdom : String
  class_ : String
  order : String
  family : String
deriving DecidableEq

def unknownTax : TaxRecord :=
  ⟨"Unknown", "Unknown", "Unknown", "Unknown"⟩

def applyPathItem (t : TaxRecord) (item : List Char) : TaxRecord :=
  let t1 := if containsSub "kingdom:".data item then
    { t with kingdom := String.mk (removeAll "kingdom:".data item) } else t
  let t2 := if containsSub "class:".data item then
    { t1 with class_ := String.mk (removeAll "class:".data item) } else t1
  let t3 := if containsSub "order:".data item then
    { t2 with order := String.mk (removeAll "order:".data item) } else t2
  if containsSub "family:".data item then
    { t3 with family := String.mk (removeAll "family:".data item) } else t3

def parsePath (path : String) : TaxRecord :=
  (splitOnPipe path.data).foldl applyPathItem unknownTax

/-! ### The Hierarchy Builder pipeline (wolf-prey-network-real-data.r) -/

structure RawInteraction where
  target_taxon_name : String
  target_taxon_path : Option String
  interaction_type : String
deriving DecidableEq

def distinctFirstAux [DecidableEq α] (seen : List α) : List α → List α
  | [] => []
  | a :: l => if a ∈ seen then distinctFirstAux seen l else a :: distinctFirstAux (a :: seen) l

def distinctFirst [DecidableEq α] (l : List α) : List α :=
  distinctFirstAux [] l

structure PreyRow where
  species : String
  kingdom : String
  class_ : String
  order : String
  family : String
  scientific_name : String
  interaction_type : String
  count : Nat
deriving DecidableEq

def resolveRow (lookup : String → Option TaxRecord) (r : RawInteraction) : PreyRow :=
  match lookup r.target_taxon_name with
  | some t =>
    ⟨r.target_taxon_name, t.kingdom, t.class_, t.order, t.family,
      r.target_taxon_name, r.interaction_type, 0⟩
  | none =>
    match r.target_taxon_path with
    | some p =>
      ⟨r.target_taxon_name, (parsePath p).kingdom, (parsePath p).class_, (parsePath p).order,
        (parsePath p).family, r.target_taxon_name, r.interaction_type, 0⟩
    | none =>
      ⟨r.target_taxon_name, "Unknown", "Unknown", "Unknown", "Unknown",
        r.target_taxon_name, r.interaction_type, 0⟩

def taxonomyRows (lookup : String → Option TaxRecord) (raw : List RawInteraction) : List PreyRow :=
  (distinctFirst raw).map (resolveRow lookup)

def countPair (raw : List RawInteraction) (s ty : String) : Nat :=
  List.countP (fun r => decide (r.target_taxon_name = s ∧ r.interaction_type = ty)) raw

def joinCount (raw : List RawInteraction) (r : PreyRow) : PreyRow :=
  { r with count :=
      if countPair raw r.species r.interaction_type = 0 then 1
      else countPair raw r.species r.interaction_type }

def countedRows (lookup : String → Option TaxRecord) (raw : List RawInteraction) : List PreyRow :=
  (taxonomyRows lookup raw).map (joinCount raw)

def animalKingdoms : List String :=
  ["Animalia", "Metazoa"]

def animalClasses : List String :=
  ["Mammalia", "Aves", "Actinopterygii", "Reptilia", "Amphibia"]

def keepRow (r : PreyRow) : Bool :=
  decide (r.kingdom ∈ animalKingdoms ∨ r.class_ ∈ animalClasses ∨
    r.kingdom = "Unknown" ∨ r.class_ = "Unknown")

def filteredRows (lookup : String → Option TaxRecord) (raw : List RawInteraction) : List PreyRow :=
  (countedRows lookup raw).filter keepRow

def normalizeRow (r : PreyRow) : PreyRow :=
  if r.kingdom = "Unknown" ∧ r.class_ ∈ animalClasses then { r with kingdom := "Animalia" } else r

def normalizedRows (lookup : String → Option TaxRecord) (raw : List RawInteraction) : List PreyRow :=
  (filteredRows lookup raw).map normalizeRow

def countDesc : PreyRow → PreyRow → Prop :=
  fun a b => b.count ≤ a.count

instance : DecidableRel countDesc :=
  fun a b => inferInstanceAs (Decidable (b.count ≤ a.count))

def sortedRows (lookup : String → Option TaxRecord) (raw : List RawInteraction) : List PreyRow :=
  List.insertionSort countDesc (normalizedRows lookup raw)

/-! ### The hierarchy JSON structure -/

inductive HNode where
  | leaf (name : String) (value : Nat) (interaction_type : String)
  | node (name : String) (children : List HNode)

def HNode.children : HNode → List HNode
  | .leaf .. => []
  | .node _ cs => cs

def HNode.isLeaf : HNode → Bool
  | .leaf .. => true
  | .node .. => false

def HNode.withRootName : HNode → String → HNode
  | .leaf _ v t, n => .leaf n v t
  | .node _ cs, n => .node n cs

def leafName (s : String) : String :=
  s ++ " (" ++ s ++ ")"

def speciesLeaf (r : PreyRow) : HNode :=
  .leaf (leafName r.species) r.count r.interaction_type

def leafEntry (r : PreyRow) : String × Nat × String :=
  (leafName r.species, r.count, r.interaction_type)

def familyRows (kd : List PreyRow) (f : String) : List PreyRow :=
  kd.filter fun r => decide (r.family = f)

def familyNode (kd : List PreyRow) (f : String) : HNode :=
  .node f ((familyRows kd f).map speciesLeaf)

def kingdomRows (rows : List PreyRow) (k : String) : List PreyRow :=
  rows.filter fun r => decide (r.kingdom = k)

def kingdomNode (rows : List PreyRow) (k : String) : HNode :=
  .node k ((distinctFirst ((kingdomRows rows k).map PreyRow.family)).map
    (familyNode (kingdomRows rows k)))

def buildChildren (rows : List PreyRow) : List HNode :=
  (distinctFirst (rows.map PreyRow.kingdom)).map (kingdomNode rows)

def rootLabel (common taxon : String) : String :=
  common ++ " (" ++ taxon ++ ")"

def buildHierarchy (common taxon : String) (rows : List PreyRow) : HNode :=
  .node (rootLabel common taxon) (buildChildren rows)

def hierarchyOf (lookup : String → Option TaxRecord) (common taxon : String)
    (raw : List RawInteraction) : HNode :=
  buildHierarchy common taxon (sortedRows lookup raw)

def processInteractions (lookup : String → Option TaxRecord) (common taxon : String)
    (raw : List RawInteraction) : Option HNode :=
  if raw.isEmpty then none else some (hierarchyOf lookup common taxon raw)

def leafData : HNode → Option (String × Nat × String)
  | .leaf n v t => some (n, v, t)
  | .node .. => none

def speciesEntries (h : HNode) : List (String × Nat × String) :=
  h.children.flatMap fun k => k.children.flatMap fun f => f.children.filterMap leafData

/-! ### The fetch trigger (server.js, POST /api/fetch-predator-data) -/

inductive FetchResponse where
  | missingPredator
  | validationError
  | execRScript (command : String)
deriving DecidableEq

def allowedChar (c : Char) : Bool :=
  decide (('a' ≤ c ∧ c ≤ 'z') ∨ ('A' ≤ c ∧ c ≤ 'Z') ∨ ('0' ≤ c ∧ c ≤ '9') ∨ c = ' ' ∨ c = '.')

def sanitizePredator (p : String) : String :=
  String.mk (p.data.filter allowedChar)

def fetchPredatorHandler (dataPath p : String) : FetchResponse :=
  if p = "" then .missingPredator
  else if sanitizePredator p ≠ p then .validationError
  else .execRScript ("Rscript wolf-prey-network-real-data.r \"" ++ p ++ "\" \"" ++ dataPath ++ "\"")

/-! ### Artifact filenames (R writer, server reader, renderer reader) -/

def underscoreAll (s : String) : String :=
  String.mk (s.data.map fun c => if c = ' ' then '_' else c)

def replaceFirstSpaceAux : List Char → List Char
  | [] => []
  | c :: rest => if c = ' ' then '_' :: rest else c :: replaceFirstSpaceAux rest

def replaceFirstSpace (s : String) : String :=
  String.mk (replaceFirstSpaceAux s.data)

def rOutputFilename (taxon : String) : String :=
  underscoreAll taxon ++ "_prey_hierarchy.json"

def serverOutputFilename (taxon : String) : String :=
  replaceFirstSpace taxon ++ "_prey_hierarchy.json"

def rendererJsonFilePath (sel : String) : String :=
  "/data/" ++ replaceFirstSpace sel ++ "_prey_hierarchy.json"

/-! ### The renderer's data loading with wolf fallback (PredatorPreyRadialTree.js) -/

inductive LoadResult where
  | display (data : HNode)
  | errorState

def canisLupusDataPath : String :=
  "/data/Canis_lupus_prey_hierarchy.json"

def loadData (selected : String) (fetchFile : String → Option HNode) : LoadResult :=
  match fetchFile (rendererJsonFilePath selected) with
  | some d => .display d
  | none =>
    if selected = "Canis lupus" then .errorState
    else
      match fetchFile canisLupusDataPath with
      | some d => .display (d.withRootName (selected ++ " (using Gray wolf data)"))
      | none => .errorState

/-! ### Click handling and scientific-name extraction (PredatorPreyRadialTree.js) -/

def wsChar (c : Char) : Bool :=
  decide (c = ' ' ∨ c = '\t' ∨ c = '\n' ∨ c = '\r')

def trimChars (l : List Char) : List Char :=
  ((l.dropWhile wsChar).reverse.dropWhile wsChar).reverse

def parenRun (l : List Char) : List Char :=
  l.takeWhile fun d => decide (d ≠ ')')

def firstParenGroup : List Char → Option (List Char)
  | [] => none
  | c :: rest =>
    if c = '(' ∧ parenRun rest ≠ [] ∧ (parenRun rest).length < rest.length then
      some (parenRun rest)
    else firstParenGroup rest

def extractScientificName (s : String) : String :=
  match firstParenGroup s.data with
  | some g => String.mk (trimChars g)
  | none => String.mk (trimChars s.data)

def clickTarget (depth : Nat) (hasChildren : Bool) (name : String) : Option String :=
  if depth = 1 ∨ (depth = 2 ∧ hasChildren = true) then none
  else some (extractScientificName name)

/-! ### Concrete inputs used by witnesses and counterexamples -/

def plantaeLookup : String → Option TaxRecord :=
  fun _ => some ⟨"Plantae", "Magnoliopsida", "Rosales", "Rosaceae"⟩

def plantaeRaw : List RawInteraction :=
  [⟨"Rosa canina", none, "eats"⟩]

def cervusLookup : String → Option TaxRecord :=
  fun _ => some ⟨"Animalia", "Mammalia", "Artiodactyla", "Cervidae"⟩

def cervusRaw : List RawInteraction :=
  [⟨"Cervus elaphus", none, "preysOn"⟩]

def cervusFamilyNode : HNode :=
  HNode.node "Cervidae" [HNode.leaf "Cervus elaphus (Cervus elaphus)" 1 "preysOn"]

def cervusKingdomNode : HNode :=
  HNode.node "Animalia" [cervusFamilyNode]

def lepusLookup : String → Option TaxRecord :=
  fun _ => some ⟨"Animalia", "Mammalia", "Lagomorpha", "Leporidae"⟩

def lepusRaw : List RawInteraction :=
  [⟨"Lepus europaeus", some "pathA", "preysOn"⟩,
   ⟨"Lepus europaeus", some "pathB", "preysOn"⟩]

def demoWolfHierarchy : HNode :=
  HNode.node "Gray wolf (Canis lupus)" []

def demoFetch : String → Option HNode :=
  fun p => if p = canisLupusDataPath then some demoWolfHierarchy else none

/-! ### Helper lemmas about `distinctFirst` (dplyr `distinct` / R `unique`) -/

theorem mem_distinctFirstAux [DecidableEq α] {x : α} (l seen : List α) :
    x ∈ distinctFirstAux seen l ↔ x ∈ l ∧ x ∉ seen := by
  induction l generalizing seen with
  | nil => simp [distinctFirstAux]
  | cons a l ih =>
    rw [distinctFirstAux]
    by_cases h : a ∈ seen
    · rw [if_pos h, ih seen]
      constructor
      · rintro ⟨hx, hns⟩
        exact ⟨List.mem_cons_of_mem a hx, hns⟩
      · rintro ⟨hx, hns⟩
        rcases List.mem_cons.mp hx with rfl | hx
        · exact absurd h hns
        · exact ⟨hx, hns⟩
    · rw [if_neg h]
      constructor
      · intro hx
        rcases List.mem_cons.mp hx with rfl | hx
        · exact ⟨List.mem_cons_self _ _, h⟩
        · rcases (ih (a :: seen)).mp hx with ⟨h1, h2⟩
          exact ⟨List.mem_cons_of_mem a h1, fun hs => h2 (List.mem_cons_of_mem a hs)⟩
      · rintro ⟨hx, hns⟩
        rcases List.mem_cons.mp hx with rfl | hx
        · exact List.mem_cons_self _ _
        · by_cases hxa : x = a
          · subst hxa
            exact List.mem_cons_self _ _
          · refine List.mem_cons_of_mem _ ((ih (a :: seen)).mpr ⟨hx, fun hs => ?_⟩)
            rcases List.mem_cons.mp hs with h' | h'
            · exact hxa h'
            · exact hns h'

theorem mem_distinctFirst [DecidableEq α] {x : α} (l : List α) :
    x ∈ distinctFirst l ↔ x ∈ l := by
  rw [distinctFirst, mem_distinctFirstAux]
  simp

theorem nodup_distinctFirstAux [DecidableEq α] (l seen : List α) :
    (distinctFirstAux seen l).Nodup := by
  induction l generalizing seen with
  | nil => simp [distinctFirstAux]
  | cons a l ih =>
    rw [distinctFirstAux]
    by_cases h : a ∈ seen
    · rw [if_pos h]
      exact ih seen
    · rw [if_neg h]
      refine List.nodup_cons.mpr ⟨fun hmem => ?_, ih (a :: seen)⟩
      exact ((mem_distinctFirstAux l (a :: seen)).mp hmem).2 (List.mem_cons_self _ _)

theorem nodup_distinctFirst [DecidableEq α] (l : List α) : (distinctFirst l).Nodup :=
  nodup_distinctFirstAux l []

/-! ### Helper lemmas for regrouping a list by keys -/

theorem flatMap_congr_mem (l : List α) (f g : α → List β) (h : ∀ a ∈ l, f a = g a) :
    l.flatMap f = l.flatMap g := by
  induction l with
  | nil => rfl
  | cons a l ih =>
    rw [List.flatMap_cons, List.flatMap_cons, h a (List.mem_cons_self _ _),
      ih fun b hb => h b (List.mem_cons_of_mem a hb)]

theorem flatMap_perm_mem (l : List α) (f g : α → List β) (h : ∀ a ∈ l, (f a).Perm (g a)) :
    (l.flatMap f).Perm (l.flatMap g) := by
  induction l with
  | nil => exact List.Perm.refl _
  | cons a l ih =>
    rw [List.flatMap_cons, List.flatMap_cons]
    exact (h a (List.mem_cons_self _ _)).append (ih fun b hb => h b (List.mem_cons_of_mem a hb))

theorem groups_perm_of_cover [DecidableEq β] (key : α → β) (ks : List β) :
    ∀ l : List α, ks.Nodup → (∀ a ∈ l, key a ∈ ks) →
      (ks.flatMap fun k => l.filter fun a => decide (key a = k)).Perm l := by
  induction ks with
  | nil =>
    intro l _ hcov
    cases l with
    | nil => exact List.Perm.refl _
    | cons a l => exact absurd (hcov a (List.mem_cons_self _ _)) (List.not_mem_nil _)
  | cons k ks ih =>
    intro l hnd hcov
    have hk : k ∉ ks := (List.nodup_cons.mp hnd).1
    have hnd' : ks.Nodup := (List.nodup_cons.mp hnd).2
    rw [List.flatMap_cons]
    have hstep : (ks.flatMap fun k' => l.filter fun a => decide (key a = k')) =
        ks.flatMap fun k' =>
          (l.filter fun a => !decide (key a = k)).filter fun a => decide (key a = k') := by
      refine flatMap_congr_mem ks _ _ fun k' hk' => ?_
      rw [List.filter_filter]
      refine List.filter_congr fun a _ => ?_
      by_cases h : key a = k'
      · have hne : k' ≠ k := fun hh => hk (hh ▸ hk')
        simp [h, hne]
      · simp [h]
    rw [hstep]
    have hcov' : ∀ a ∈ l.filter fun a => !decide (key a = k), key a ∈ ks := by
      intro a ha
      rcases List.mem_filter.mp ha with ⟨hal, hane⟩
      rcases List.mem_cons.mp (hcov a hal) with h' | h'
      · simp [h'] at hane
      · exact h'
    have ihp := ih (l.filter fun a => !decide (key a = k)) hnd' hcov'
    exact ((List.Perm.refl (l.filter fun a => decide (key a = k))).append ihp).trans
      (List.filter_append_perm _ l)

theorem distinctFirst_groups_perm [DecidableEq β] (key : α → β) (l : List α) :
    ((distinctFirst (l.map key)).flatMap fun k => l.filter fun a => decide (key a = k)).Perm l :=
  groups_perm_of_cover key _ l (nodup_distinctFirst _)
    fun _ ha => (mem_distinctFirst _).mpr (List.mem_map_of_mem key ha)

/-! ### The species leaves of a built hierarchy are exactly the filtered rows -/

theorem filterMap_leafData_map (l : List PreyRow) :
    (l.map speciesLeaf).filterMap leafData = l.map leafEntry := by
  induction l with
  | nil => rfl
  | cons r l ih => simp [speciesLeaf, leafData, leafEntry, List.filterMap_cons, ih]

theorem kingdomNode_entries_perm (rows : List PreyRow) (kn : String) :
    ((kingdomNode rows kn).children.flatMap fun f => f.children.filterMap leafData).Perm
      ((kingdomRows rows kn).map leafEntry) := by
  show ((((distinctFirst ((kingdomRows rows kn).map PreyRow.family)).map
      (familyNode (kingdomRows rows kn))).flatMap fun f => f.children.filterMap leafData).Perm
    ((kingdomRows rows kn).map leafEntry))
  rw [List.flatMap_map]
  have h1 : ((distinctFirst ((kingdomRows rows kn).map PreyRow.family)).flatMap fun fn =>
      (familyNode (kingdomRows rows kn) fn).children.filterMap leafData) =
      (distinctFirst ((kingdomRows rows kn).map PreyRow.family)).flatMap fun fn =>
        (familyRows (kingdomRows rows kn) fn).map leafEntry := by
    refine flatMap_congr_mem _ _ _ fun fn _ => ?_
    show ((familyRows (kingdomRows rows kn) fn).map speciesLeaf).filterMap leafData =
      (familyRows (kingdomRows rows kn) fn).map leafEntry
    exact filterMap_leafData_map _
  rw [h1]
  have h2 : ((distinctFirst ((kingdomRows rows kn).map PreyRow.family)).flatMap fun fn =>
      (familyRows (kingdomRows rows kn) fn).map leafEntry) =
      ((distinctFirst ((kingdomRows rows kn).map PreyRow.family)).flatMap fun fn =>
        familyRows (kingdomRows rows kn) fn).map leafEntry := by
    rw [List.map_flatMap]
  rw [h2]
  exact (distinctFirst_groups_perm PreyRow.family (kingdomRows rows kn)).map leafEntry

theorem speciesEntries_buildHierarchy (common taxon : String) (rows : List PreyRow) :
    (speciesEntries (buildHierarchy common taxon rows)).Perm (rows.map leafEntry) := by
  show ((buildChildren rows).flatMap fun k =>
    k.children.flatMap fun f => f.children.filterMap leafData).Perm (rows.map leafEntry)
  rw [buildChildren, List.flatMap_map]
  refine (flatMap_perm_mem _ _ (fun kn => (kingdomRows rows kn).map leafEntry)
    fun kn _ => kingdomNode_entries_perm rows kn).trans ?_
  rw [← List.map_flatMap]
  exact (distinctFirst_groups_perm PreyRow.kingdom rows).map leafEntry

theorem speciesEntries_hierarchyOf (lookup : String → Option TaxRecord) (common taxon : String)
    (raw : List RawInteraction) :
    (speciesEntries (hierarchyOf lookup common taxon raw)).Perm
      ((filteredRows lookup raw).map leafEntry) := by
  have h1 := speciesEntries_buildHierarchy common taxon (sortedRows lookup raw)
  have h2 : (sortedRows lookup raw).Perm (normalizedRows lookup raw) :=
    List.perm_insertionSort _ _
  have h3 : (normalizedRows lookup raw).map leafEntry = (filteredRows lookup raw).map leafEntry := by
    rw [normalizedRows, List.map_map]
    refine List.map_congr_left fun r _ => ?_
    show leafEntry (normalizeRow r) = leafEntry r
    unfold normalizeRow
    split <;> rfl
  exact h1.trans (h3 ▸ h2.map leafEntry)

/-! ### Injectivity of the species leaf label -/

theorem string_data_append (a b : String) : (a ++ b).data = a.data ++ b.data :=
  rfl

theorem leafName_injective : Function.Injective leafName := by
  intro a b h
  have hdata : a.data ++ (" (".data ++ (a.data ++ ")".data)) =
      b.data ++ (" (".data ++ (b.data ++ ")".data)) := by
    have h0 := congrArg String.data h
    simpa [leafName, string_data_append, List.append_assoc] using h0
  have hlen : a.data.length = b.data.length := by
    have h1 := congrArg List.length hdata
    simp only [List.length_append] at h1
    omega
  have h2 := (List.append_inj hdata hlen).1
  cases a
  cases b
  exact congrArg String.mk h2

theorem leafPair_injective :
    Function.Injective fun p : String × String => (leafName p.1, p.2) := by
  intro p q hpq
  simp only [Prod.mk.injEq] at hpq
  exact Prod.ext (leafName_injective hpq.1) hpq.2

/-! ### Claim theorems -/

/-- Claim C1 (amended): the builder signals `NoDataFound` (returns no hierarchy,
so no artifact is written) exactly when the fetch produced zero interaction
rows; it does not signal `NoDataFound` when rows were fetched but every row is
filtered out. -/
theorem c1_nodata_iff_empty_fetch (lookup : String → Option TaxRecord) (common taxon : String)
    (raw : List RawInteraction) :
    processInteractions lookup common taxon raw = none ↔ raw = [] := by
  cases raw with
  | nil => simp [processInteractions]
  | cons a l => simp [processInteractions]

/-- Claim C1 counterexample: on an interaction set whose single row is
classified kingdom `Plantae` with a known non-animal class, the builder does
not signal `NoDataFound`: it still produces a hierarchy (so the artifact is
written), and that hierarchy is degenerate (root with an empty children
list). -/
theorem c1_counterexample :
    (processInteractions plantaeLookup "Canis lupus" "Canis lupus" plantaeRaw).isSome = true ∧
    (hierarchyOf plantaeLookup "Canis lupus" "Canis lupus" plantaeRaw).children = [] :=
  ⟨rfl, rfl⟩

/-- Claim C2: a resolved `(species, interactionType)` row appears as a leaf of
the output hierarchy if and only if its kingdom is Animalia or Metazoa, or its
class is one of the five recognized animal classes, or its kingdom or class is
Unknown; every other row is dropped. -/
theorem c2_keep_iff (lookup : String → Option TaxRecord) (common taxon : String)
    (raw : List RawInteraction) (x : String × Nat × String) :
    x ∈ speciesEntries (hierarchyOf lookup common taxon raw) ↔
      ∃ r ∈ countedRows lookup raw,
        (r.kingdom ∈ animalKingdoms ∨ r.class_ ∈ animalClasses ∨
          r.kingdom = "Unknown" ∨ r.class_ = "Unknown") ∧ x = leafEntry r := by
  rw [(speciesEntries_hierarchyOf lookup common taxon raw).mem_iff]
  constructor
  · intro hx
    rcases List.mem_map.mp hx with ⟨r, hr, rfl⟩
    rcases List.mem_filter.mp hr with ⟨hrc, hrk⟩
    exact ⟨r, hrc, of_decide_eq_true hrk, rfl⟩
  · rintro ⟨r, hrc, hcond, rfl⟩
    exact List.mem_map_of_mem _ (List.mem_filter.mpr ⟨hrc, decide_eq_true hcond⟩)

/-- Claim C3: every species leaf of the output hierarchy carries the count of
original (pre-deduplication) interaction records with its `(species,
interactionType)` pair, with pairs matching no raw record defaulting to 1; in
particular every leaf value is at least 1. -/
theorem c3_leaf_value (lookup : String → Option TaxRecord) (common taxon : String)
    (raw : List RawInteraction) :
    ∀ x ∈ speciesEntries (hierarchyOf lookup common taxon raw),
      ∃ s, x.1 = leafName s ∧ x.2.1 = max 1 (countPair raw s x.2.2) ∧ 1 ≤ x.2.1 := by
  intro x hx
  rw [(speciesEntries_hierarchyOf lookup common taxon raw).mem_iff] at hx
  rcases List.mem_map.mp hx with ⟨r, hr, rfl⟩
  rcases List.mem_filter.mp hr with ⟨hrc, _⟩
  rcases List.mem_map.mp hrc with ⟨r0, _, rfl⟩
  refine ⟨r0.species, rfl, ?_, ?_⟩
  · show (if countPair raw r0.species r0.interaction_type = 0 then 1
        else countPair raw r0.species r0.interaction_type) =
      max 1 (countPair raw r0.species r0.interaction_type)
    split <;> omega
  · show 1 ≤ (if countPair raw r0.species r0.interaction_type = 0 then 1
        else countPair raw r0.species r0.interaction_type)
    split <;> omega

/-- Witness for C3: on a concrete one-row fetch, the single leaf of the output
hierarchy has value `max 1 1 = 1` and the expected label shape. -/
theorem c3_witness :
    ∃ s, ("Cervus elaphus (Cervus elaphus)" : String) = leafName s ∧
      (1 : Nat) = max 1 (countPair cervusRaw s "preysOn") ∧ (1 : Nat) ≤ 1 :=
  c3_leaf_value cervusLookup "Gray wolf" "Canis lupus" cervusRaw
    ("Cervus elaphus (Cervus elaphus)", 1, "preysOn") (by decide)

/-- Claim C4 counterexample: the deduplication step is `distinct()` over the
triple `(target_taxon_name, target_taxon_path, interaction_type)`, not over
the `(species, interactionType)` pair, so one pair occurring with two
different taxon paths yields two leaves for the same pair. -/
theorem c4_counterexample :
    (speciesEntries (hierarchyOf lepusLookup "Gray wolf" "Canis lupus" lepusRaw)).map
        (fun e => (e.1, e.2.2)) =
      [("Lepus europaeus (Lepus europaeus)", "preysOn"),
       ("Lepus europaeus (Lepus europaeus)", "preysOn")] := by
  decide

/-- Claim C4 (amended): species leaves are unique per `(species,
interactionType)` pair provided each pair occurs with a single
`target_taxon_path` among the raw interaction rows, i.e. whenever the
deduplicated triples have pairwise distinct `(name, interactionType)`
projections. -/
theorem c4_unique_leaves (lookup : String → Option TaxRecord) (common taxon : String)
    (raw : List RawInteraction)
    (h : ((distinctFirst raw).map fun r => (r.target_taxon_name, r.interaction_type)).Nodup) :
    ((speciesEntries (hierarchyOf lookup common taxon raw)).map fun e => (e.1, e.2.2)).Nodup := by
  have hperm := (speciesEntries_hierarchyOf lookup common taxon raw).map
    fun e : String × Nat × String => (e.1, e.2.2)
  rw [hperm.nodup_iff, List.map_map]
  have hcounted : ((countedRows lookup raw).map fun r : PreyRow => (r.species, r.interaction_type)) =
      (distinctFirst raw).map fun r => (r.target_taxon_name, r.interaction_type) := by
    rw [countedRows, taxonomyRows, List.map_map, List.map_map]
    refine List.map_congr_left fun r _ => ?_
    rcases hl : lookup r.target_taxon_name with _ | t
    · rcases hp : r.target_taxon_path with _ | p <;> simp [joinCount, resolveRow, hl, hp]
    · simp [joinCount, resolveRow, hl]
  have hcn : ((countedRows lookup raw).map fun r : PreyRow => (r.species, r.interaction_type)).Nodup := by
    rw [hcounted]
    exact h
  have hbase : ((filteredRows lookup raw).map fun r : PreyRow => (r.species, r.interaction_type)).Nodup :=
    List.Nodup.sublist
      (List.Sublist.map (fun r : PreyRow => (r.species, r.interaction_type))
        (List.filter_sublist _)) hcn
  have hrw : ((fun e : String × Nat × String => (e.1, e.2.2)) ∘ leafEntry) =
      (fun p : String × String => (leafName p.1, p.2)) ∘
        fun r : PreyRow => (r.species, r.interaction_type) := rfl
  rw [hrw, ← List.map_map]
  exact List.Nodup.map leafPair_injective hbase

/-- Witness for C4 (amended): on a concrete one-row fetch, where the pair
projection of the deduplicated triples is duplicate-free, the leaf pairs of
the output hierarchy are duplicate-free. -/
theorem c4_witness :
    ((speciesEntries (hierarchyOf cervusLookup "Gray wolf" "Canis lupus" cervusRaw)).map
      fun e => (e.1, e.2.2)).Nodup :=
  c4_unique_leaves cervusLookup "Gray wolf" "Canis lupus" cervusRaw (by decide)

/-- Claim C5: in every emitted hierarchy, every kingdom-level child is an
internal node with a non-empty children list, each of its children (family
nodes) is an internal node with a non-empty children list, and every child of
a family node is a species leaf. -/
theorem c5_no_empty_nodes (lookup : String → Option TaxRecord) (common taxon : String)
    (raw : List RawInteraction) :
    ∀ k ∈ (hierarchyOf lookup common taxon raw).children,
      k.isLeaf = false ∧ k.children ≠ [] ∧
        ∀ f ∈ k.children, f.isLeaf = false ∧ f.children ≠ [] ∧
          ∀ s ∈ f.children, s.isLeaf = true := by
  intro k hk
  have hk' : k ∈ buildChildren (sortedRows lookup raw) := hk
  rcases List.mem_map.mp hk' with ⟨kn, hkn, rfl⟩
  rcases List.mem_map.mp ((mem_distinctFirst _).mp hkn) with ⟨r, hr, hrk⟩
  have hrkd : r ∈ kingdomRows (sortedRows lookup raw) kn :=
    List.mem_filter.mpr ⟨hr, by simp [hrk]⟩
  refine ⟨rfl, ?_, ?_⟩
  · show (distinctFirst ((kingdomRows (sortedRows lookup raw) kn).map PreyRow.family)).map
        (familyNode (kingdomRows (sortedRows lookup raw) kn)) ≠ []
    exact List.ne_nil_of_mem
      (List.mem_map_of_mem _ ((mem_distinctFirst _).mpr (List.mem_map_of_mem _ hrkd)))
  · intro f hf
    rcases List.mem_map.mp hf with ⟨fn, hfn, rfl⟩
    rcases List.mem_map.mp ((mem_distinctFirst _).mp hfn) with ⟨r2, hr2, hrf⟩
    refine ⟨rfl, ?_, ?_⟩
    · show (familyRows (kingdomRows (sortedRows lookup raw) kn) fn).map speciesLeaf ≠ []
      exact List.ne_nil_of_mem
        (List.mem_map_of_mem _ (List.mem_filter.mpr ⟨hr2, by simp [hrf]⟩))
    · intro s hs
      rcases List.mem_map.mp hs with ⟨r3, _, rfl⟩
      rfl

/-- Witness for C5: on a concrete one-row fetch, the kingdom node and the
family node of the emitted hierarchy both have non-empty children. -/
theorem c5_witness : cervusKingdomNode.children ≠ [] ∧ cervusFamilyNode.children ≠ [] := by
  have hc : (hierarchyOf cervusLookup "Gray wolf" "Canis lupus" cervusRaw).children =
      [cervusKingdomNode] := rfl
  have h := c5_no_empty_nodes cervusLookup "Gray wolf" "Canis lupus" cervusRaw
    cervusKingdomNode (hc ▸ List.mem_singleton_self _)
  have hf : cervusFamilyNode ∈ cervusKingdomNode.children := List.mem_singleton_self _
  exact ⟨h.2.1, (h.2.2 cervusFamilyNode hf).2.1⟩

/-- Claim C7: the fetch trigger answers a validation error, and runs no
external command, for every predator string containing a character outside
the allowed set; the external R script command is built only for strings all
of whose characters are allowed. -/
theorem c7_validation (dataPath predator : String) :
    ((∃ c ∈ predator.data, allowedChar c = false) →
      fetchPredatorHandler dataPath predator = FetchResponse.validationError) ∧
    (∀ command, fetchPredatorHandler dataPath predator = FetchResponse.execRScript command →
      ∀ c ∈ predator.data, allowedChar c = true) := by
  have hsan : sanitizePredator predator = predator ↔ ∀ c ∈ predator.data, allowedChar c = true := by
    constructor
    · intro h
      exact List.filter_eq_self.mp (congrArg String.data h)
    · intro h
      exact congrArg String.mk (List.filter_eq_self.mpr h)
  constructor
  · rintro ⟨c, hc, hbad⟩
    have hne : predator ≠ "" := by
      intro h0
      subst h0
      exact List.not_mem_nil c hc
    have hdiff : sanitizePredator predator ≠ predator := by
      intro h0
      rw [hsan.mp h0 c hc] at hbad
      cases hbad
    unfold fetchPredatorHandler
    rw [if_neg hne, if_pos hdiff]
  · intro command hcmd c hc
    unfold fetchPredatorHandler at hcmd
    by_cases h0 : predator = ""
    · rw [if_pos h0] at hcmd
      exact FetchResponse.noConfusion hcmd
    · rw [if_neg h0] at hcmd
      by_cases h1 : sanitizePredator predator ≠ predator
      · rw [if_pos h1] at hcmd
        exact FetchResponse.noConfusion hcmd
      · exact hsan.mp (not_ne_iff.mp h1) c hc

/-- Witness for C7: a predator string containing a `;` shell metacharacter is
answered with a validation error. -/
theorem c7_witness :
    fetchPredatorHandler "public/data" "Canis lupus; rm -rf /" = FetchResponse.validationError :=
  (c7_validation "public/data" "Canis lupus; rm -rf /").1 ⟨';', by decide, by decide⟩

/-- Claim C8: on the trinomial taxon "Puma concolor couguar" the R writer
(gsub, all spaces) and the server and renderer readers (JavaScript
`replace(' ', '_')`, first space only) compute different artifact filenames,
so the writer and the readers disagree. -/
theorem c8_filename_mismatch :
    rOutputFilename "Puma concolor couguar" = "Puma_concolor_couguar_prey_hierarchy.json" ∧
    serverOutputFilename "Puma concolor couguar" = "Puma_concolor couguar_prey_hierarchy.json" ∧
    rendererJsonFilePath "Puma concolor couguar" =
      "/data/Puma_concolor couguar_prey_hierarchy.json" ∧
    serverOutputFilename "Puma concolor couguar" ≠ rOutputFilename "Puma concolor couguar" := by
  refine ⟨rfl, rfl, rfl, ?_⟩
  decide

/-- Claim C9: when the hierarchy fetch for the requested predator fails, the
renderer either ends in the explicit error state, or displays the default
Canis lupus hierarchy with its root title rewritten to the labeled
"(using Gray wolf data)" form; there is no third, silent outcome. -/
theorem c9_fallback_or_error (selected : String) (fetchFile : String → Option HNode)
    (h : fetchFile (rendererJsonFilePath selected) = none) :
    loadData selected fetchFile = LoadResult.errorState ∨
      ∃ d, fetchFile canisLupusDataPath = some d ∧ selected ≠ "Canis lupus" ∧
        loadData selected fetchFile =
          LoadResult.display (d.withRootName (selected ++ " (using Gray wolf data)")) := by
  have hload : loadData selected fetchFile =
      (if selected = "Canis lupus" then LoadResult.errorState
       else
        match fetchFile canisLupusDataPath with
        | some d => LoadResult.display (d.withRootName (selected ++ " (using Gray wolf data)"))
        | none => LoadResult.errorState) := by
    unfold loadData
    rw [h]
  rw [hload]
  by_cases hsel : selected = "Canis lupus"
  · rw [if_pos hsel]
    exact Or.inl rfl
  · rw [if_neg hsel]
    cases hdef : fetchFile canisLupusDataPath with
    | some d => exact Or.inr ⟨d, rfl, hsel, rfl⟩
    | none => exact Or.inl rfl

/-- Witness for C9: requesting "Vulpes vulpes" against a store holding only
the default wolf artifact yields the labeled fallback or the error state. -/
theorem c9_witness :
    loadData "Vulpes vulpes" demoFetch = LoadResult.errorState ∨
      ∃ d, demoFetch canisLupusDataPath = some d ∧ ("Vulpes vulpes" : String) ≠ "Canis lupus" ∧
        loadData "Vulpes vulpes" demoFetch =
          LoadResult.display (d.withRootName ("Vulpes vulpes" ++ " (using Gray wolf data)")) :=
  c9_fallback_or_error "Vulpes vulpes" demoFetch rfl

/-- Claim C10: the click guard returns a no-op exactly for kingdom nodes
(depth 1) and family nodes with children (depth 2); a click on the root
(depth 0) opens the Wikipedia lookup on the scientific name extracted from
the root label, exactly as a species-leaf (depth 3) click does, and
extraction takes the first parenthesized group of the label. -/
theorem c10_root_click (hasChildren : Bool) (name : String) :
    (∀ depth : Nat,
      clickTarget depth hasChildren name = none ↔ depth = 1 ∨ (depth = 2 ∧ hasChildren = true)) ∧
    clickTarget 0 hasChildren name = some (extractScientificName name) ∧
    clickTarget 0 hasChildren name = clickTarget 3 false name ∧
    extractScientificName "Gray wolf (Canis lupus)" = "Canis lupus" := by
  refine ⟨?_, ?_, ?_, by decide⟩
  · intro depth
    unfold clickTarget
    split
    · next hcond => exact iff_of_true rfl hcond
    · next hcond => exact iff_of_false (by simp) hcond
  · simp [clickTarget]
  · simp [clickTarget]
